import Mathlib

/-!
Shallow embedding of the 2D parametric-sketch constraint engine
(`src/constraint_manager.rs`, `src/drawing_manager.rs`).

Conventions of the embedding:

* Coordinates are exact rationals (`ℚ`); the source uses `f32`.  The two
  irrational float primitives — square root (used by `length`, `distance`,
  `normalized` and the circle-intersection discriminant) and `atan2` — are
  passed in explicitly as function parameters `sq : ℚ → ℚ` and
  `at2 : ℚ → ℚ → ℚ`.  Theorems either hold for every choice of these
  primitives (purely structural claims) or carry hypotheses saying the
  primitive is exact at the finitely many arguments the computation feeds it.
* Rust panics (`unwrap()` on a missing handle, the explicit `panic!()` in
  `line_data_generator`) are modelled as `Option.none`: a `none` result of a
  solver function means the Rust program aborts on that input.
* `BTreeMap` is modelled as an association list ordered by key (`BTreeMap`
  iterates in ascending key order); `insert` is sorted insertion,
  `last_key_value` is the last list entry.
* Float literals appearing in the source are translated to the exact
  rational value of the corresponding `f32` constant:
  `0.001f32 = 8589935/2^33`, `0.01f32 = 10737418/2^30`,
  `f32::consts::PI = 13176795/2^22`.  `500.0`, `10.0`, `4.0` … are exact.
-/

namespace CPM

/-- Exact rational value of the `f32` literal `0.001` in the source. -/
def EPS_001 : ℚ := 8589935 / 8589934592

/-- Exact rational value of the `f32` literal `0.01` in the source. -/
def EPS_01 : ℚ := 10737418 / 1073741824

/-- Exact rational value of `f32::consts::PI`. -/
def PI32 : ℚ := 13176795 / 4194304

/-- Models `egui::Vec2`. -/
structure Vec2 where
  x : ℚ
  y : ℚ
deriving DecidableEq, Repr

/-- Models `egui::Pos2`. -/
structure Pos2 where
  x : ℚ
  y : ℚ
deriving DecidableEq, Repr

instance : HSub Pos2 Pos2 Vec2 := ⟨fun a b => ⟨a.x - b.x, a.y - b.y⟩⟩

instance : HAdd Pos2 Vec2 Pos2 := ⟨fun p v => ⟨p.x + v.x, p.y + v.y⟩⟩

instance : HSub Vec2 Vec2 Vec2 := ⟨fun a b => ⟨a.x - b.x, a.y - b.y⟩⟩

instance : HMul Vec2 ℚ Vec2 := ⟨fun v r => ⟨v.x * r, v.y * r⟩⟩

instance : Neg Vec2 := ⟨fun v => ⟨-v.x, -v.y⟩⟩

/-- Models `egui::Vec2::UP` (screen coordinates: y grows downwards). -/
def Vec2.UP : Vec2 := ⟨0, -1⟩

/-- Squared euclidean norm (the argument the float square root receives). -/
def Vec2.length_sq (v : Vec2) : ℚ := v.x * v.x + v.y * v.y

/-- Models `Vec2::length`, with the square-root primitive explicit. -/
def Vec2.length (sq : ℚ → ℚ) (v : Vec2) : ℚ := sq v.length_sq

/-- Models `Vec2::dot`. -/
def Vec2.dot (a b : Vec2) : ℚ := a.x * b.x + a.y * b.y

/-- Models `Vec2::normalized`: `self / length`, returning `self` unchanged when the
computed length is not positive (egui's zero-length guard). -/
def Vec2.normalized (sq : ℚ → ℚ) (v : Vec2) : Vec2 :=
  let len := v.length sq
  if len ≤ 0 then v else ⟨v.x / len, v.y / len⟩

/-- Models `Pos2::distance`: `(self - other).length()`. -/
def Pos2.distance (sq : ℚ → ℚ) (a b : Pos2) : ℚ := Vec2.length sq (a - b)

/-- Models `Circle` locus (`constraint_manager.rs`). -/
structure Circle where
  origin : Pos2
  radius : ℚ
deriving DecidableEq, Repr

/-- Models `Line` locus. -/
structure Line where
  origin : Pos2
  direction : Vec2
deriving DecidableEq, Repr

/-- Models `Ray` locus. -/
structure Ray where
  origin : Pos2
  direction : Vec2
deriving DecidableEq, Repr

/-- Models `Point` locus. -/
structure Point where
  origin : Pos2
deriving DecidableEq, Repr

/-- Models `Circle::closest_point`. -/
def Circle.closest_point (sq : ℚ → ℚ) (c : Circle) (point : Pos2) : Pos2 :=
  let dir := point - c.origin
  let dir := if Vec2.length sq dir < EPS_001 then Vec2.UP else dir
  let dir := Vec2.normalized sq dir
  c.origin + dir * c.radius

/-- Models `Line::closest_point` (pure projection, no square root involved). -/
def Line.closest_point (l : Line) (point : Pos2) : Pos2 :=
  let origin_to_point := point - l.origin
  let projection_length := origin_to_point.dot l.direction
  l.origin + l.direction * projection_length

/-- Models `Ray::closest_point`: like `Line` but the parameter is clamped at `0`. -/
def Ray.closest_point (r : Ray) (point : Pos2) : Pos2 :=
  let origin_to_point := point - r.origin
  let projection_length := origin_to_point.dot r.direction
  r.origin + r.direction * max projection_length 0

/-- Models `ConstraintPath`: the locus of legal positions produced by one
constraint. -/
inductive ConstraintPath where
  | Circle (c : Circle)
  | Line (l : Line)
  | Ray (r : Ray)
  | Point (p : Point)
deriving DecidableEq, Repr

/-- Models `ConstraintPath::closest_point`. -/
def ConstraintPath.closest_point (sq : ℚ → ℚ) :
    ConstraintPath → Pos2 → Pos2
  | .Circle c, point => c.closest_point sq point
  | .Line l, point => l.closest_point point
  | .Ray r, point => r.closest_point point
  | .Point p, _ => p.origin

/-- Models `ray_ray_intersection`. -/
def ray_ray_intersection (ray1 ray2 : Ray) : Option Point :=
  let x1 := ray1.origin.x
  let y1 := ray1.origin.y
  let dx1 := ray1.direction.x
  let dy1 := ray1.direction.y
  let x2 := ray2.origin.x
  let y2 := ray2.origin.y
  let dx2 := ray2.direction.x
  let dy2 := ray2.direction.y
  let denominator := dx1 * dy2 - dy1 * dx2
  if |denominator| < EPS_001 then none
  else
    let t := ((x2 - x1) * dy2 - (y2 - y1) * dx2) / denominator
    let u := ((x2 - x1) * dy1 - (y2 - y1) * dx1) / denominator
    if 0 ≤ t ∧ 0 ≤ u then some ⟨⟨x1 + t * dx1, y1 + t * dy1⟩⟩ else none

/-- Models `ray_circle_intersection` (the discriminant's square root is the float
primitive `sq`). -/
def ray_circle_intersection (sq : ℚ → ℚ) (ray : Ray) (circle : Circle) :
    List Point :=
  let dx := ray.direction.x
  let dy := ray.direction.y
  let cx := circle.origin.x
  let cy := circle.origin.y
  let x0 := ray.origin.x
  let y0 := ray.origin.y
  let a := dx * dx + dy * dy
  let b := 2 * (dx * (x0 - cx) + dy * (y0 - cy))
  let c := (x0 - cx) * (x0 - cx) + (y0 - cy) * (y0 - cy) -
    circle.radius * circle.radius
  let discriminant := b * b - 4 * a * c
  if discriminant < 0 then []
  else
    let sqrt_disc := sq discriminant
    let t1 := (-b + sqrt_disc) / (2 * a)
    let t2 := (-b - sqrt_disc) / (2 * a)
    (if 0 ≤ t1 then [⟨⟨x0 + t1 * dx, y0 + t1 * dy⟩⟩] else []) ++
      (if 0 ≤ t2 then [⟨⟨x0 + t2 * dx, y0 + t2 * dy⟩⟩] else [])

/-! ## Entity store and constraint catalogue data model -/

/-- Models `drawing_manager::Vertex`. -/
structure Vertex where
  position : Pos2
  edge_handles : List Int
deriving DecidableEq, Repr

/-- The `Edge` entity.  `start_point_vh`/`end_point_vh` are as in
`drawing_manager.rs`.  The `constraints` field is the `owned_constraints`
list that `constraint_manager.rs` reads (`edge.constraints`) and that
`add_parallel_constraint` pushes into; its declaration is not under `src/`,
so it is modelled from the spec (§3 Edge: "`owned_constraints`: set of
ConstraintHandle referencing constraints anchored on this specific edge"),
initialised empty at edge creation. -/
structure Edge where
  start_point_vh : Int
  end_point_vh : Int
  constraints : List Int
deriving DecidableEq, Repr

/-- Models `LengthConstraint`. -/
structure LengthConstraint where
  edge_handle : Int
deriving DecidableEq, Repr

/-- Models `AngleConstraint`. -/
structure AngleConstraint where
  pivot_vert_handle : Int
  edge_1_handle : Int
  edge_1_outer_vert_handle : Int
  edge_2_handle : Int
  edge_2_outer_vert_handle : Int
deriving DecidableEq, Repr

/-- Models `ParallelConstraint`. -/
structure ParallelConstraint where
  edge_1_handle : Int
  edge_2_handle : Int
deriving DecidableEq, Repr

/-- Models `Constraint`: the three-variant tagged union. -/
inductive Constraint where
  | LENGTH (c : LengthConstraint)
  | ANGLE (c : AngleConstraint)
  | PARALLEL (c : ParallelConstraint)
deriving DecidableEq, Repr

/-- Models `ConstraintError` (`constraint_manager.rs`). -/
inductive ConstraintError where
  | ConstraintNotAdded
  | ConstraintNotFound (ch : Int)
  | NoSharedVertex
  | DegenerateEdge
  | FullOverlap
deriving DecidableEq, Repr

/-- Models `DrawingManagerError` (`drawing_manager.rs`). -/
inductive DrawingManagerError where
  | EdgeNotAdded
  | VertexNotAdded
  | ConstraintNotAdded
  | EdgeNotFound (h : Int)
  | VertexNotFound (h : Int)
  | ConstraintNotFound (h : Int)
  | NoSharedVertex
  | DegenerateEdge
  | FullOverlap
deriving DecidableEq, Repr

/-- Decidable equality for `Except` results (component-wise). -/
instance {ε α : Type} [DecidableEq ε] [DecidableEq α] :
    DecidableEq (Except ε α) := fun a b =>
  match a, b with
  | .error x, .error y => decidable_of_iff (x = y) (by simp)
  | .ok x, .ok y => decidable_of_iff (x = y) (by simp)
  | .error _, .ok _ => isFalse (by simp)
  | .ok _, .error _ => isFalse (by simp)

/-- Association-list lookup, modelling `BTreeMap::get`. -/
def lookupA {α : Type} : List (Int × α) → Int → Option α
  | [], _ => none
  | (k, v) :: rest, h => if k = h then some v else lookupA rest h

/-- In-place update of the value stored at a key, modelling
`BTreeMap::get_mut` followed by a mutation. -/
def updateA {α : Type} : List (Int × α) → Int → (α → α) → List (Int × α)
  | [], _, _ => []
  | (k, v) :: rest, h, f =>
    if k = h then (k, f v) :: rest else (k, v) :: updateA rest h f

/-- Sorted insertion, modelling `BTreeMap::insert` on a key-ordered list. -/
def insertA {α : Type} : List (Int × α) → Int → α → List (Int × α)
  | [], k, v => [(k, v)]
  | (k', v') :: rest, k, v =>
    if k < k' then (k, v) :: (k', v') :: rest
    else if k = k' then (k, v) :: rest
    else (k', v') :: insertA rest k v

/-- Models `get_next_id`: `map.last_key_value().map_or(0, |(k, _)| k + 1)`. -/
def get_next_id {α : Type} (m : List (Int × α)) : Int :=
  match m.getLast? with
  | none => 0
  | some p => p.1 + 1

/-- The combined state read by the solver: the `DrawingManager`'s vertex and
edge maps and the `ConstraintManager`'s constraint map. -/
structure State where
  vertex_map : List (Int × Vertex)
  edge_map : List (Int × Edge)
  constraint_map : List (Int × Constraint)
deriving DecidableEq, Repr

/-- The empty manager pair. -/
def State.empty : State := ⟨[], [], []⟩

/-- Models `DrawingManager::get_vertex` (the `Ok` payload; `none` = not found). -/
def getVertex (st : State) (vh : Int) : Option Vertex :=
  lookupA st.vertex_map vh

/-- Models `DrawingManager::get_edge` (the `Ok` payload; `none` = not found). -/
def getEdge (st : State) (eh : Int) : Option Edge :=
  lookupA st.edge_map eh

/-- Models `DrawingManager::add_vertex`: always succeeds, returns the new handle. -/
def add_vertex (st : State) (position : Pos2) : State × Int :=
  let next_id := get_next_id st.vertex_map
  ({ st with
      vertex_map := insertA st.vertex_map next_id ⟨position, []⟩ }, next_id)

/-- Models `DrawingManager::add_edge`: fails if either vertex handle is absent; on
success inserts the edge and appends the new edge handle to both vertices'
`edge_handles`. -/
def add_edge (st : State) (vh_1 vh_2 : Int) :
    Except DrawingManagerError (State × Int) :=
  if (lookupA st.vertex_map vh_1).isNone then
    .error (.VertexNotFound vh_1)
  else if (lookupA st.vertex_map vh_2).isNone then
    .error (.VertexNotFound vh_2)
  else
    let next_id := get_next_id st.edge_map
    let em := insertA st.edge_map next_id ⟨vh_1, vh_2, []⟩
    let vm := updateA st.vertex_map vh_1
      (fun v => { v with edge_handles := v.edge_handles ++ [next_id] })
    let vm := updateA vm vh_2
      (fun v => { v with edge_handles := v.edge_handles ++ [next_id] })
    .ok ({ st with vertex_map := vm, edge_map := em }, next_id)

/-- Models `find_shared_and_unmatched_vertices` (`constraint_manager.rs`): the
pairwise comparison of the four endpoint handles. -/
def find_shared_and_unmatched_vertices (e_1_vh_1 e_1_vh_2 e_2_vh_1 e_2_vh_2 :
    Int) : Except ConstraintError (Int × Int × Int) :=
  if e_1_vh_1 = e_1_vh_2 ∨ e_2_vh_1 = e_2_vh_2 then .error .DegenerateEdge
  else
    match decide (e_1_vh_1 = e_2_vh_1), decide (e_1_vh_1 = e_2_vh_2),
        decide (e_1_vh_2 = e_2_vh_1), decide (e_1_vh_2 = e_2_vh_2) with
    | true, true, _, _ => .error .FullOverlap
    | _, _, true, true => .error .FullOverlap
    | true, false, false, false => .ok (e_1_vh_1, e_1_vh_2, e_2_vh_2)
    | false, true, false, false => .ok (e_1_vh_1, e_1_vh_2, e_2_vh_1)
    | false, false, true, false => .ok (e_1_vh_2, e_1_vh_1, e_2_vh_2)
    | false, false, false, true => .ok (e_1_vh_2, e_1_vh_1, e_2_vh_1)
    | false, false, false, false => .error .NoSharedVertex
    | _, _, _, _ => .error .NoSharedVertex

/-- Models `ConstraintManager::add_length_constraint`.  Note: it only inserts into
the constraint map; it does not register the handle into the edge's
`constraints` list. -/
def add_length_constraint (st : State) (eh : Int) :
    Except ConstraintError (State × Int) :=
  if (lookupA st.edge_map eh).isNone then .error .ConstraintNotAdded
  else
    let next_id := get_next_id st.constraint_map
    .ok ({ st with
        constraint_map :=
          insertA st.constraint_map next_id (.LENGTH ⟨eh⟩) }, next_id)

/-- Models `ConstraintManager::add_angle_constraint`. -/
def add_angle_constraint (st : State) (eh_1 eh_2 : Int) :
    Except ConstraintError (State × Int) :=
  if (lookupA st.edge_map eh_1).isNone then .error .ConstraintNotAdded
  else if (lookupA st.edge_map eh_2).isNone then .error .ConstraintNotAdded
  else
    match lookupA st.edge_map eh_1, lookupA st.edge_map eh_2 with
    | some edge_1, some edge_2 =>
      match find_shared_and_unmatched_vertices edge_1.start_point_vh
          edge_1.end_point_vh edge_2.start_point_vh edge_2.end_point_vh with
      | .error e => .error e
      | .ok (pivot, outer_1, outer_2) =>
        let next_id := get_next_id st.constraint_map
        .ok ({ st with
            constraint_map := insertA st.constraint_map next_id
              (.ANGLE ⟨pivot, eh_1, outer_1, eh_2, outer_2⟩) }, next_id)
    | _, _ => .error .ConstraintNotAdded

/-- Models `ConstraintManager::add_parallel_constraint`: inserts the constraint and
then pushes the new handle into both edges' `constraints` lists. -/
def add_parallel_constraint (st : State) (edge_1_handle edge_2_handle : Int) :
    Except ConstraintError (State × Int) :=
  if (lookupA st.edge_map edge_1_handle).isNone then
    .error .ConstraintNotAdded
  else if (lookupA st.edge_map edge_2_handle).isNone then
    .error .ConstraintNotAdded
  else
    let next_id := get_next_id st.constraint_map
    let cm := insertA st.constraint_map next_id
      (.PARALLEL ⟨edge_1_handle, edge_2_handle⟩)
    let em := updateA st.edge_map edge_1_handle
      (fun e => { e with constraints := e.constraints ++ [next_id] })
    let em := updateA em edge_2_handle
      (fun e => { e with constraints := e.constraints ++ [next_id] })
    .ok ({ st with edge_map := em, constraint_map := cm }, next_id)

/-! ## The solver -/

/-- Models `SolverState`.  `PartialLocus` is the source's `Partial` variant
(constrained but movable along a locus). -/
inductive SolverState where
  | Locked
  | PartialLocus
  | Free
deriving DecidableEq, Repr

/-- Models `SolverResponse`. -/
structure SolverResponse where
  state : SolverState
  valid_path : Option ConstraintPath
  new_pos : Option Pos2
deriving DecidableEq, Repr

/-- Models `SolverResponse::locked`. -/
def SolverResponse.locked : SolverResponse := ⟨.Locked, none, none⟩

/-- Models `EdgeSolverResponse`; `new_pos` models the `[Pos2; 2]` array. -/
structure EdgeSolverResponse where
  state : SolverState
  valid_paths : Option (List ConstraintPath)
  new_pos : Option (Pos2 × Pos2)
deriving DecidableEq, Repr

/-- Models `EdgeSolverResponse::locked`. -/
def EdgeSolverResponse.locked : EdgeSolverResponse := ⟨.Locked, none, none⟩

/-- Models `EdgeSolverResponse::default()`: `SolverState` defaults to `Free`, the
other fields to `None`. -/
def EdgeSolverResponse.free : EdgeSolverResponse := ⟨.Free, none, none⟩

/-- The four buckets that `solve_for_vertex` sorts the constraints touching
the vertex into. -/
structure Buckets where
  length_end : List LengthConstraint
  angle_center : List AngleConstraint
  angle_end : List AngleConstraint
  parallel_end : List ParallelConstraint
deriving DecidableEq, Repr

/-- The constraint-classification loop at the top of `solve_for_vertex`:
walk the constraint map in key order, skip ignored handles, and bucket every
constraint touching `vh`.  `none` models the Rust `unwrap()` panic on a
constraint referencing a missing edge. -/
def classifyAux (st : State) (vh : Int) (ignore : List Int) :
    List (Int × Constraint) → Option Buckets
  | [] => some ⟨[], [], [], []⟩
  | (ch, c) :: rest =>
    if ch ∈ ignore then classifyAux st vh ignore rest
    else
      match c with
      | .LENGTH lc =>
        match getEdge st lc.edge_handle with
        | none => none
        | some edge =>
          match classifyAux st vh ignore rest with
          | none => none
          | some bs =>
            if edge.end_point_vh = vh ∨ edge.start_point_vh = vh then
              some { bs with length_end := lc :: bs.length_end }
            else some bs
      | .ANGLE ac =>
        match classifyAux st vh ignore rest with
        | none => none
        | some bs =>
          if ac.pivot_vert_handle = vh then
            some { bs with angle_center := ac :: bs.angle_center }
          else if ac.edge_1_outer_vert_handle = vh ∨
              ac.edge_2_outer_vert_handle = vh then
            some { bs with angle_end := ac :: bs.angle_end }
          else some bs
      | .PARALLEL pc =>
        match getEdge st pc.edge_1_handle, getEdge st pc.edge_2_handle with
        | some edge_1, some edge_2 =>
          match classifyAux st vh ignore rest with
          | none => none
          | some bs =>
            if edge_1.end_point_vh = vh ∨ edge_1.start_point_vh = vh ∨
                edge_2.end_point_vh = vh ∨ edge_2.start_point_vh = vh then
              some { bs with parallel_end := pc :: bs.parallel_end }
            else some bs
        | _, _ => none

/-- Modelled from the spec: `Edge::direction_from_handle`, whose declaration
is not under `src/` (only its call sites in `constraint_manager.rs` are).
Per §3/§7 it is the normalized start→end direction of the edge and, being a
direction-dependent computation, fails when the edge's length is below the
epsilon 1e-2; `none` covers both that failure and a missing handle. -/
def direction_from_handle (sq : ℚ → ℚ) (st : State) (eh : Int) :
    Option Vec2 :=
  match getEdge st eh with
  | none => none
  | some edge =>
    match getVertex st edge.start_point_vh,
        getVertex st edge.end_point_vh with
    | some vs, some ve =>
      let dir := ve.position - vs.position
      if Vec2.length sq dir < EPS_01 then none
      else some (Vec2.normalized sq dir)
    | _, _ => none

/-- The hard-lock pre-check loop over the angle-center constraints: for each
one compute the two arm directions, form `delta = dir_2 - dir_1`,
`angle = atan2(delta.y, delta.x)`, and lock if
`|angle| > 0.001 || |PI - angle| > 0.001`.  Returns `some true` when the
loop hits the `return Locked`, `some false` when it falls through, `none`
when a direction computation panics first. -/
def precheck (sq : ℚ → ℚ) (at2 : ℚ → ℚ → ℚ) (st : State) :
    List AngleConstraint → Option Bool
  | [] => some false
  | acc :: rest =>
    match direction_from_handle sq st acc.edge_1_handle with
    | none => none
    | some dir_1 =>
      match direction_from_handle sq st acc.edge_2_handle with
      | none => none
      | some dir_2 =>
        let delta := dir_2 - dir_1
        let angle := at2 delta.y delta.x
        if EPS_001 < |angle| ∨ EPS_001 < |PI32 - angle| then some true
        else precheck sq at2 st rest

/-- Models `line_data_generator` closure in `solve_for_vertex`: looks up the end
then the center vertex, panics (`none`) when the direction is shorter than
`0.01`, and otherwise returns `(center + dir * 10, dir)` for the normalized
direction. -/
def line_data_generator (sq : ℚ → ℚ) (st : State) (center_vh end_vh : Int) :
    Option (Pos2 × Vec2) :=
  match getVertex st end_vh with
  | none => none
  | some end_vertex =>
    match getVertex st center_vh with
    | none => none
    | some center_vertex =>
      let line_dir := end_vertex.position - center_vertex.position
      if Vec2.length sq line_dir < EPS_01 then none
      else
        let line_dir := Vec2.normalized sq line_dir
        some (center_vertex.position + line_dir * (10 : ℚ), line_dir)

/-- Step 2a of `solve_for_vertex`: one circle per length constraint, centered
at the edge's other endpoint, radius = distance from `fixed_pos` to that
endpoint. -/
def lengthPaths (sq : ℚ → ℚ) (st : State) (vh : Int) (fixed_pos : Pos2) :
    List LengthConstraint → Option (List ConstraintPath)
  | [] => some []
  | lc :: rest =>
    match getEdge st lc.edge_handle with
    | none => none
    | some edge =>
      let other_vh := if edge.start_point_vh = vh then edge.end_point_vh
        else edge.start_point_vh
      match getVertex st other_vh with
      | none => none
      | some other_vertex =>
        let path_radius := Pos2.distance sq fixed_pos other_vertex.position
        match lengthPaths sq st vh fixed_pos rest with
        | none => none
        | some ps =>
          some (.Circle ⟨other_vertex.position, path_radius⟩ :: ps)

/-- Step 2b: one ray per angle-end constraint, from the pivot through the
dragged vertex. -/
def angleEndPaths (sq : ℚ → ℚ) (st : State) (vh : Int) :
    List AngleConstraint → Option (List ConstraintPath)
  | [] => some []
  | ac :: rest =>
    match line_data_generator sq st ac.pivot_vert_handle vh with
    | none => none
    | some (origin, direction) =>
      match angleEndPaths sq st vh rest with
      | none => none
      | some ps => some (.Ray ⟨origin, direction⟩ :: ps)

/-- Step 2c: one line per angle-center constraint (only reachable when the
pre-check fell through). -/
def angleCenterPaths (sq : ℚ → ℚ) (st : State) (vh : Int) :
    List AngleConstraint → Option (List ConstraintPath)
  | [] => some []
  | ac :: rest =>
    match line_data_generator sq st ac.pivot_vert_handle vh with
    | none => none
    | some (origin, direction) =>
      match angleCenterPaths sq st vh rest with
      | none => none
      | some ps => some (.Line ⟨origin, direction⟩ :: ps)

/-- Step 2d: one line per parallel constraint, along whichever of the two
participating edges contains `vh`. -/
def parallelPaths (sq : ℚ → ℚ) (st : State) (vh : Int) :
    List ParallelConstraint → Option (List ConstraintPath)
  | [] => some []
  | pc :: rest =>
    match getEdge st pc.edge_1_handle, getEdge st pc.edge_2_handle with
    | some edge_1, some edge_2 =>
      let gen :=
        if edge_1.start_point_vh = vh ∨ edge_1.end_point_vh = vh then
          line_data_generator sq st edge_1.start_point_vh edge_1.end_point_vh
        else
          line_data_generator sq st edge_2.start_point_vh edge_2.end_point_vh
      match gen with
      | none => none
      | some (origin, direction) =>
        match parallelPaths sq st vh rest with
        | none => none
        | some ps => some (.Line ⟨origin, direction⟩ :: ps)
    | _, _ => none

/-- One step of the pairwise reduction in `intersect_paths`: combine the
running locus with the next one, `none` meaning "no locus survives". -/
def pairRule (sq : ℚ → ℚ) (current next : ConstraintPath) :
    Option ConstraintPath :=
  match current, next with
  | .Circle _, .Circle _ =>
    -- TODO arm in the source: Circle-Circle left unhandled, locus unchanged
    some current
  | .Line l1, .Line l2 =>
    let adjusted_origin_1 := l1.origin + -l1.direction * (500 : ℚ)
    let adjusted_origin_2 := l2.origin + -l2.direction * (500 : ℚ)
    match ray_ray_intersection ⟨adjusted_origin_1, l1.direction⟩
        ⟨adjusted_origin_2, l2.direction⟩ with
    | some _ => none
    | none =>
      let cp := l2.closest_point l1.origin
      if Pos2.distance sq cp l1.origin < EPS_001 then some (.Line l1)
      else none
  | .Ray r1, .Ray r2 =>
    match ray_ray_intersection r1 r2 with
    | some _ => none
    | none =>
      let temp_line : Line := ⟨r2.origin, r2.direction⟩
      let cp := temp_line.closest_point r1.origin
      if Pos2.distance sq cp r1.origin < EPS_001 then
        some (.Ray ⟨r1.origin, r1.direction⟩)
      else none
  | .Circle _, .Line _ => none
  | .Line _, .Circle _ => none
  | .Circle _, .Ray _ => none
  | .Ray _, .Circle _ => none
  | .Line l, .Ray r =>
    let adjusted_origin := l.origin + -l.direction * (500 : ℚ)
    match ray_ray_intersection ⟨adjusted_origin, l.direction⟩ r with
    | some _ => none
    | none =>
      let cp := l.closest_point r.origin
      if Pos2.distance sq cp r.origin < EPS_001 then some (.Ray r)
      else none
  | .Ray r, .Line l =>
    let adjusted_origin := l.origin + -l.direction * (500 : ℚ)
    match ray_ray_intersection ⟨adjusted_origin, l.direction⟩ r with
    | some _ => none
    | none =>
      let cp := l.closest_point r.origin
      if Pos2.distance sq cp r.origin < EPS_001 then some (.Ray r)
      else none
  | _, _ => some current

/-- The left fold of `intersect_paths` over the remaining loci, short
circuiting once the running locus is gone. -/
def intersectFold (sq : ℚ → ℚ) : ConstraintPath → List ConstraintPath →
    Option ConstraintPath
  | current, [] => some current
  | current, next :: rest =>
    match pairRule sq current next with
    | none => none
    | some current' => intersectFold sq current' rest

/-- Models `intersect_paths`: start from the first locus and fold the rest. -/
def intersect_paths (sq : ℚ → ℚ) (constraint_paths : List ConstraintPath) :
    Option ConstraintPath :=
  match constraint_paths with
  | [] => none
  | p :: rest => intersectFold sq p rest

/-- Models `ConstraintManager::solve_for_vertex`.  `none` models a Rust panic. -/
def solve_for_vertex (sq : ℚ → ℚ) (at2 : ℚ → ℚ → ℚ) (st : State) (vh : Int)
    (fixed_pos try_pos : Pos2) (constraints_to_ignore : List Int) :
    Option SolverResponse :=
  match classifyAux st vh constraints_to_ignore st.constraint_map with
  | none => none
  | some bs =>
    if bs.length_end = [] ∧ bs.angle_center = [] ∧ bs.angle_end = [] ∧
        bs.parallel_end = [] then
      some ⟨.Free, none, some try_pos⟩
    else
      match precheck sq at2 st bs.angle_center with
      | none => none
      | some true => some ⟨.Locked, none, none⟩
      | some false =>
        match lengthPaths sq st vh fixed_pos bs.length_end with
        | none => none
        | some ps1 =>
          match angleEndPaths sq st vh bs.angle_end with
          | none => none
          | some ps2 =>
            match angleCenterPaths sq st vh bs.angle_center with
            | none => none
            | some ps3 =>
              match parallelPaths sq st vh bs.parallel_end with
              | none => none
              | some ps4 =>
                let constraint_paths := ps1 ++ ps2 ++ ps3 ++ ps4
                match intersect_paths sq constraint_paths with
                | some vp =>
                  some ⟨.PartialLocus, some vp,
                    some (vp.closest_point sq try_pos)⟩
                | none => some ⟨.Locked, none, none⟩

/-- The `intersect_func` closure in `solve_for_edge`: intersect the edge's
own line with one endpoint locus. -/
def edgeIntersectFunc (sq : ℚ → ℚ) (edge_line : Line) :
    ConstraintPath → Option Pos2
  | .Line l2 =>
    let adjusted_origin_1 := edge_line.origin + -edge_line.direction * (500 : ℚ)
    let adjusted_origin_2 := l2.origin + -l2.direction * (500 : ℚ)
    match ray_ray_intersection ⟨adjusted_origin_1, edge_line.direction⟩
        ⟨adjusted_origin_2, l2.direction⟩ with
    | some inter => some inter.origin
    | none => none
  | .Ray r =>
    let adjusted_origin := edge_line.origin + -edge_line.direction * (500 : ℚ)
    match ray_ray_intersection ⟨adjusted_origin, edge_line.direction⟩ r with
    | some inter => some inter.origin
    | none => none
  | .Circle c =>
    let adjusted_origin := edge_line.origin + -edge_line.direction * (500 : ℚ)
    match ray_circle_intersection sq ⟨adjusted_origin, edge_line.direction⟩
        c with
    | [] => none
    | p :: _ => some p.origin
  | .Point _ => none

/-- Models `ConstraintManager::solve_for_edge`.  The second argument position
(`fixed_pos`) is unused in the source (`_fixed_pos`); `try_pos` seeds the
edge line's origin.  `none` models a Rust panic. -/
def solve_for_edge (sq : ℚ → ℚ) (at2 : ℚ → ℚ → ℚ) (st : State) (eh : Int)
    (_fixed_pos try_pos : Pos2) (v1_fixed_pos v1_try_pos : Pos2)
    (v2_fixed_pos v2_try_pos : Pos2) : Option EdgeSolverResponse :=
  match getEdge st eh with
  | none => none
  | some edge =>
    let vh_1 := edge.start_point_vh
    let vh_2 := edge.end_point_vh
    let edge_consts := edge.constraints
    match solve_for_vertex sq at2 st vh_1 v1_fixed_pos v1_try_pos
        edge_consts with
    | none => none
    | some vert_response_1 =>
      match solve_for_vertex sq at2 st vh_2 v2_fixed_pos v2_try_pos
          edge_consts with
      | none => none
      | some vert_response_2 =>
        if vert_response_1.state = .Locked then
          some EdgeSolverResponse.locked
        else if vert_response_2.state = .Locked then
          some EdgeSolverResponse.locked
        else
          let is_v1_free := vert_response_1.state = .Free
          let is_v2_free := vert_response_2.state = .Free
          if is_v1_free ∧ is_v2_free then some EdgeSolverResponse.free
          else
            match getVertex st vh_1, getVertex st vh_2 with
            | some vert_1, some vert_2 =>
              let line_pt_1 := vert_1.position
              let line_pt_2 := vert_2.position
              let edge_line : Line :=
                ⟨try_pos, Vec2.normalized sq (line_pt_2 - line_pt_1)⟩
              if is_v1_free then
                match vert_response_2.valid_path with
                | none => none
                | some valid_path_2 =>
                  let new_pt_2 :=
                    (edgeIntersectFunc sq edge_line valid_path_2).getD ⟨0, 0⟩
                  let delta := new_pt_2 - v2_fixed_pos
                  let new_pt_1 := v1_fixed_pos + delta
                  some ⟨.PartialLocus, some [valid_path_2],
                    some (new_pt_1, new_pt_2)⟩
              else if is_v2_free then
                match vert_response_1.valid_path with
                | none => none
                | some valid_path_1 =>
                  let new_pt_1 :=
                    (edgeIntersectFunc sq edge_line valid_path_1).getD ⟨0, 0⟩
                  let delta := new_pt_1 - v1_fixed_pos
                  let new_pt_2 := v2_fixed_pos + delta
                  some ⟨.PartialLocus, some [valid_path_1],
                    some (new_pt_1, new_pt_2)⟩
              else
                match vert_response_1.valid_path with
                | none => none
                | some valid_path_1 =>
                  match edgeIntersectFunc sq edge_line valid_path_1 with
                  | none => some EdgeSolverResponse.locked
                  | some inter_1 =>
                    match vert_response_2.valid_path with
                    | none => none
                    | some valid_path_2 =>
                      match edgeIntersectFunc sq edge_line valid_path_2 with
                      | none => some EdgeSolverResponse.locked
                      | some inter_2 =>
                        some ⟨.PartialLocus,
                          some [valid_path_1, valid_path_2],
                          some (inter_1, inter_2)⟩
            | _, _ => none

/-! ## Call sequences (for the handle-allocation invariant) -/

/-- One call of the mutating API surface. -/
inductive Op where
  | addV (position : Pos2)
  | addE (vh_1 vh_2 : Int)
  | addLC (eh : Int)
  | addAC (eh_1 eh_2 : Int)
  | addPC (eh_1 eh_2 : Int)
deriving DecidableEq, Repr

/-- Apply one call: the new state plus the handle it returned, if any,
tagged by which map the handle lives in (vertex, edge, constraint).  A
failed call leaves the state untouched and returns no handle. -/
def stepOp (st : State) : Op → State × Option Int × Option Int × Option Int
  | .addV p =>
    let (st', h) := add_vertex st p
    (st', some h, none, none)
  | .addE a b =>
    match add_edge st a b with
    | .ok (st', h) => (st', none, some h, none)
    | .error _ => (st, none, none, none)
  | .addLC e =>
    match add_length_constraint st e with
    | .ok (st', h) => (st', none, none, some h)
    | .error _ => (st, none, none, none)
  | .addAC e1 e2 =>
    match add_angle_constraint st e1 e2 with
    | .ok (st', h) => (st', none, none, some h)
    | .error _ => (st, none, none, none)
  | .addPC e1 e2 =>
    match add_parallel_constraint st e1 e2 with
    | .ok (st', h) => (st', none, none, some h)
    | .error _ => (st, none, none, none)

/-- Run a call sequence, collecting the returned vertex, edge and
constraint handles in call order. -/
def runOps : State → List Op → State × List Int × List Int × List Int
  | st, [] => (st, [], [], [])
  | st, op :: rest =>
    let (st1, vh?, eh?, ch?) := stepOp st op
    let (stf, vs, es, cs) := runOps st1 rest
    (stf, vh?.toList ++ vs, eh?.toList ++ es, ch?.toList ++ cs)

/-- The keys of an association-list map, in list order. -/
def keysOf {α : Type} (m : List (Int × α)) : List Int := m.map Prod.fst

/-- A block of `k` consecutive integers starting at `n`. -/
def intsFrom (n : Int) (k : ℕ) : List Int :=
  (List.range k).map (fun (i : ℕ) => n + (i : Int))

/-! ## Concrete scenarios used by the witnesses and counterexamples -/

/-- Square-root table covering every argument the witness computations feed
the float square-root primitive (all chosen to be perfect squares). -/
def sqA : ℚ → ℚ := fun q =>
  if q = 1 then 1
  else if q = 9 then 3
  else if q = 16 then 4
  else if q = 25 then 5
  else if q = 64 then 8
  else if q = 100 then 10
  else if q = 1 / 40000 then 1 / 200
  else 0

/-- The `atan2` primitive for scenarios where its value is irrelevant
(Rust's `atan2(0.0, 0.0)` is `0`, matching the colinear scenario). -/
def at2zero : ℚ → ℚ → ℚ := fun _ _ => 0

/-- Colinear-arms angle scenario: pivot vertex 1 at the origin with the two
arms along the x-axis (outer vertices at `(-10,0)` and `(10,0)`), one angle
constraint on the two edges. -/
def stAngleColinear : State :=
  let s := State.empty
  let s := (add_vertex s ⟨-10, 0⟩).1
  let s := (add_vertex s ⟨0, 0⟩).1
  let s := (add_vertex s ⟨10, 0⟩).1
  let s := match add_edge s 0 1 with | .ok p => p.1 | .error _ => s
  let s := match add_edge s 1 2 with | .ok p => p.1 | .error _ => s
  match add_angle_constraint s 0 1 with | .ok p => p.1 | .error _ => s

/-- Perpendicular-arms angle scenario: pivot vertex 0 at the origin, arms to
`(4,0)` and `(0,4)`, one angle constraint on the two edges. -/
def stAnglePerp : State :=
  let s := State.empty
  let s := (add_vertex s ⟨0, 0⟩).1
  let s := (add_vertex s ⟨4, 0⟩).1
  let s := (add_vertex s ⟨0, 4⟩).1
  let s := match add_edge s 0 1 with | .ok p => p.1 | .error _ => s
  let s := match add_edge s 0 2 with | .ok p => p.1 | .error _ => s
  match add_angle_constraint s 0 1 with | .ok p => p.1 | .error _ => s

/-- Length-constrained edge scenario: vertices `(0,0)` and `(4,0)`, one edge
between them, a length constraint added through
`ConstraintManager::add_length_constraint`. -/
def stLenEdge : State :=
  let s := State.empty
  let s := (add_vertex s ⟨0, 0⟩).1
  let s := (add_vertex s ⟨4, 0⟩).1
  let s := match add_edge s 0 1 with | .ok p => p.1 | .error _ => s
  match add_length_constraint s 0 with | .ok p => p.1 | .error _ => s

/-- Unconstrained edge scenario: vertices `(0,0)` and `(4,0)`, one edge, no
constraints at all. -/
def stFreeEdge : State :=
  let s := State.empty
  let s := (add_vertex s ⟨0, 0⟩).1
  let s := (add_vertex s ⟨4, 0⟩).1
  match add_edge s 0 1 with | .ok p => p.1 | .error _ => s

/-- Parallel scenario before the parallel constraint is added: vertices
`(0,0) (4,0) (8,0) (0,4) (4,4)`, edges `0:(0→1)`, `1:(1→2)`, `2:(3→4)`. -/
def stPreParallel : State :=
  let s := State.empty
  let s := (add_vertex s ⟨0, 0⟩).1
  let s := (add_vertex s ⟨4, 0⟩).1
  let s := (add_vertex s ⟨8, 0⟩).1
  let s := (add_vertex s ⟨0, 4⟩).1
  let s := (add_vertex s ⟨4, 4⟩).1
  let s := match add_edge s 0 1 with | .ok p => p.1 | .error _ => s
  let s := match add_edge s 1 2 with | .ok p => p.1 | .error _ => s
  match add_edge s 3 4 with | .ok p => p.1 | .error _ => s

/-- Parallel scenario: a parallel constraint between edges 1 and 2; edge 0
shares vertex 1 with the constrained edge 1 and owns no constraints. -/
def stParallel : State :=
  match add_parallel_constraint stPreParallel 1 2 with
  | .ok p => p.1
  | .error _ => stPreParallel

/-- Short-arm angle scenario: pivot vertex 0 at the origin, outer vertex 1
at distance `1/200 < 0.01` from it, second arm to `(0,10)`, one angle
constraint on the two edges. -/
def stShortArm : State :=
  let s := State.empty
  let s := (add_vertex s ⟨0, 0⟩).1
  let s := (add_vertex s ⟨1 / 200, 0⟩).1
  let s := (add_vertex s ⟨0, 10⟩).1
  let s := match add_edge s 0 1 with | .ok p => p.1 | .error _ => s
  let s := match add_edge s 0 2 with | .ok p => p.1 | .error _ => s
  match add_angle_constraint s 0 1 with | .ok p => p.1 | .error _ => s

/-! ## Helper lemmas -/

/-- The pre-check's lock condition holds for every possible angle value:
`|a| ≤ 0.001` forces `|π - a| ≥ π - 0.001 > 0.001`.  (This is the `||` slip
at `constraint_manager.rs:304`; the comments around it intend a conjunction.) -/
theorem lock_condition_tautology (a : ℚ) :
    EPS_001 < |a| ∨ EPS_001 < |PI32 - a| := by
  by_cases h : EPS_001 < |a|
  · exact Or.inl h
  · right
    push_neg at h
    have ha : a ≤ EPS_001 := le_trans (le_abs_self a) h
    have h2 : EPS_001 < PI32 - EPS_001 := by norm_num [EPS_001, PI32]
    have h3 : PI32 - EPS_001 ≤ PI32 - a := by linarith
    exact lt_of_lt_of_le (lt_of_lt_of_le h2 h3) (le_abs_self _)

/-- A pre-check over a nonempty angle-center bucket whose head's arm
directions compute successfully always hits the `return Locked`. -/
theorem precheck_cons_locks (sq : ℚ → ℚ) (at2 : ℚ → ℚ → ℚ) (st : State)
    (ac : AngleConstraint) (rest : List AngleConstraint) (d1 d2 : Vec2)
    (h1 : direction_from_handle sq st ac.edge_1_handle = some d1)
    (h2 : direction_from_handle sq st ac.edge_2_handle = some d2) :
    precheck sq at2 st (ac :: rest) = some true := by
  rw [precheck, h1, h2]
  simp only [if_pos (lock_condition_tautology _)]

/-- A constraint-map entry whose constraint is an angle constraint pivoted
at `vh` and not ignored lands in the angle-center bucket, so a successful
classification has a nonempty angle-center bucket. -/
theorem classifyAux_angle_center_ne_nil (st : State) (vh : Int)
    (ig : List Int) :
    ∀ (l : List (Int × Constraint)) (bs : Buckets) (ch : Int)
      (ac : AngleConstraint),
      classifyAux st vh ig l = some bs → (ch, Constraint.ANGLE ac) ∈ l →
      ac.pivot_vert_handle = vh → ch ∉ ig →
      bs.angle_center.length ≠ 0 := by
  intro l
  induction l with
  | nil => intro bs ch ac _ hm; simp at hm
  | cons hd tl ih =>
    intro bs ch ac hcl hm hpiv hig
    obtain ⟨ch', c'⟩ := hd
    rcases List.mem_cons.mp hm with heq | hmtl
    · obtain ⟨rfl, rfl⟩ := Prod.mk.injEq .. ▸ heq
      rw [classifyAux, if_neg hig] at hcl
      rcases hrest : classifyAux st vh ig tl with _ | bs'
      · rw [hrest] at hcl; cases hcl
      · rw [hrest] at hcl
        dsimp only at hcl
        rw [if_pos hpiv] at hcl
        cases hcl
        simp
    · by_cases hig' : ch' ∈ ig
      · rw [classifyAux.eq_def] at hcl
        dsimp only at hcl
        rw [if_pos hig'] at hcl
        exact ih bs ch ac hcl hmtl hpiv hig
      · rw [classifyAux.eq_def] at hcl
        dsimp only at hcl
        rw [if_neg hig'] at hcl
        cases c' with
        | LENGTH lc =>
          dsimp only at hcl
          rcases hge : getEdge st lc.edge_handle with _ | edge
          · rw [hge] at hcl; cases hcl
          · rw [hge] at hcl
            dsimp only at hcl
            rcases hrest : classifyAux st vh ig tl with _ | bs'
            · rw [hrest] at hcl; cases hcl
            · rw [hrest] at hcl
              dsimp only at hcl
              have hne := ih bs' ch ac hrest hmtl hpiv hig
              split at hcl <;> (cases hcl; simpa using hne)
        | ANGLE a =>
          dsimp only at hcl
          rcases hrest : classifyAux st vh ig tl with _ | bs'
          · rw [hrest] at hcl; cases hcl
          · rw [hrest] at hcl
            dsimp only at hcl
            have hne := ih bs' ch ac hrest hmtl hpiv hig
            by_cases hp : a.pivot_vert_handle = vh
            · rw [if_pos hp] at hcl; cases hcl; simp
            · rw [if_neg hp] at hcl
              split at hcl <;> (cases hcl; simpa using hne)
        | PARALLEL pc =>
          dsimp only at hcl
          rcases hg1 : getEdge st pc.edge_1_handle with _ | edge_1
          · rw [hg1] at hcl; cases hcl
          · rcases hg2 : getEdge st pc.edge_2_handle with _ | edge_2
            · rw [hg1, hg2] at hcl; cases hcl
            · rw [hg1, hg2] at hcl
              dsimp only at hcl
              rcases hrest : classifyAux st vh ig tl with _ | bs'
              · rw [hrest] at hcl; cases hcl
              · rw [hrest] at hcl
                dsimp only at hcl
                have hne := ih bs' ch ac hrest hmtl hpiv hig
                split at hcl <;> (cases hcl; simpa using hne)

/-! ## Claim C1 -/

/-- C1: the claim says that a pivot vertex whose angle-constraint arms are
currently colinear passes the hard-lock pre-check and receives a `Partial`
response with a line locus through the pivot.  In the code the pre-check
condition `angle.abs() > 0.001 || (PI - angle).abs() > 0.001` is a
tautology (second conjunct of this theorem), so the pre-check returns
`Locked` for every arm configuration; at the concrete colinear scenario
(`stAngleColinear`: arms along the x-axis through pivot vertex 1, square
root exact at every argument used, `atan2` returning `0` as Rust does on
`(0,0)`) the solver returns `Locked` with no locus and no position instead
of the claimed `Partial` line. -/
theorem c1_colinear_pivot_locked_eval :
    solve_for_vertex sqA at2zero stAngleColinear 1 ⟨0, 0⟩ ⟨0, 5⟩ [] =
      some ⟨.Locked, none, none⟩ ∧
    ∀ angle : ℚ, EPS_001 < |angle| ∨ EPS_001 < |PI32 - angle| :=
  ⟨by decide!, lock_condition_tautology⟩

/-! ## Claim C2 -/

/-- C2: the claim says two edges sharing both endpoints make
`add_angle_constraint` fail with `FullOverlap`.  In the code the
`FullOverlap` match arms of `find_shared_and_unmatched_vertices` require
one endpoint of edge 1 to equal both endpoints of edge 2, which the
degenerate-edge check has already ruled out, so they are unreachable: two
coincident (non-degenerate) edges fall through to the catch-all and yield
`NoSharedVertex` (first conjunct, at endpoints `(0,1)` and `(0,1)`), and
every invocation yields `DegenerateEdge`, `NoSharedVertex` or success
(second conjunct) — never `FullOverlap`. -/
theorem c2_full_overlap_unreachable :
    find_shared_and_unmatched_vertices 0 1 0 1 =
      .error ConstraintError.NoSharedVertex ∧
    ∀ a b c d : Int,
      find_shared_and_unmatched_vertices a b c d =
          .error ConstraintError.DegenerateEdge ∨
      find_shared_and_unmatched_vertices a b c d =
          .error ConstraintError.NoSharedVertex ∨
      ∃ p q r, find_shared_and_unmatched_vertices a b c d = .ok (p, q, r) := by
  constructor
  · decide!
  · intro a b c d
    unfold find_shared_and_unmatched_vertices
    by_cases h0 : a = b ∨ c = d
    · rw [if_pos h0]; exact Or.inl rfl
    · rw [if_neg h0]
      push_neg at h0
      obtain ⟨hab, hcd⟩ := h0
      cases h1 : decide (a = c) <;> cases h2 : decide (a = d) <;>
        cases h3 : decide (b = c) <;> cases h4 : decide (b = d) <;>
        simp only [decide_eq_true_eq, decide_eq_false_iff_not] at h1 h2 h3 h4 <;>
        first
        | (exfalso; omega)
        | exact Or.inr (Or.inl rfl)
        | exact Or.inr (Or.inr ⟨_, _, _, rfl⟩)

/-! ## Claim C5 -/

/-- C5: a vertex that is the pivot of a non-ignored angle constraint is
always reported `Locked` (with no locus and no position) by
`solve_for_vertex`, for every square-root and `atan2` primitive, provided
the classification pass and the pre-check's two arm-direction computations
do not panic.  This is stronger than the claim, which additionally assumes
the arm directions are not within 1e-3 of 0° or 180° apart: the pre-check's
lock condition is a tautology (see `lock_condition_tautology`), so the
angle hypothesis is not needed. -/
theorem c5_angle_pivot_locked (sq : ℚ → ℚ) (at2 : ℚ → ℚ → ℚ) (st : State)
    (vh ch : Int) (ac : AngleConstraint) (fixed_pos try_pos : Pos2)
    (ig : List Int) (bs : Buckets)
    (hmem : (ch, Constraint.ANGLE ac) ∈ st.constraint_map)
    (hpiv : ac.pivot_vert_handle = vh) (hig : ch ∉ ig)
    (hcl : classifyAux st vh ig st.constraint_map = some bs)
    (hdirs : ∀ ac' ∈ bs.angle_center,
      (direction_from_handle sq st ac'.edge_1_handle).isSome ∧
      (direction_from_handle sq st ac'.edge_2_handle).isSome) :
    solve_for_vertex sq at2 st vh fixed_pos try_pos ig =
      some ⟨.Locked, none, none⟩ := by
  have hne := classifyAux_angle_center_ne_nil st vh ig st.constraint_map bs
    ch ac hcl hmem hpiv hig
  rcases hac : bs.angle_center with _ | ⟨ac0, rest⟩
  · rw [hac] at hne; simp at hne
  · have hd0 := hdirs ac0 (by rw [hac]; exact List.mem_cons_self ..)
    obtain ⟨d1, hd1⟩ := Option.isSome_iff_exists.mp hd0.1
    obtain ⟨d2, hd2⟩ := Option.isSome_iff_exists.mp hd0.2
    rw [solve_for_vertex, hcl]
    dsimp only
    rw [if_neg (by rw [hac]; simp)]
    rw [hac, precheck_cons_locks sq at2 st ac0 rest d1 d2 hd1 hd2]

/-- Witness for C5: the perpendicular-arms scenario (`stAnglePerp`, pivot
vertex 0, arms to `(4,0)` and `(0,4)`) with an exact square root and the
zero `atan2`: the pivot solve is `Locked`. -/
theorem c5_witness :
    solve_for_vertex sqA at2zero stAnglePerp 0 ⟨0, 0⟩ ⟨1, 1⟩ [] =
      some ⟨.Locked, none, none⟩ :=
  c5_angle_pivot_locked sqA at2zero stAnglePerp 0 0 ⟨0, 0, 1, 1, 2⟩
    ⟨0, 0⟩ ⟨1, 1⟩ [] ⟨[], [⟨0, 0, 1, 1, 2⟩], [], []⟩
    (by decide!) rfl (by decide!) (by decide!) (by decide!)

/-! ## Claim C7 -/

/-- C7, counterexample: the claim says an edge whose two endpoint solves are
both `Free` returns `Free` with `new_pos` equal to the tentative endpoint
positions.  On the unconstrained edge of `stFreeEdge` the solver instead
returns the default response, whose `new_pos` is `none` (the caller is the
one that applies the raw delta): the response carries no positions at
all, in particular not `some (⟨1,0⟩, ⟨5,0⟩)`. -/
theorem c7_counterexample :
    solve_for_edge sqA at2zero stFreeEdge 0 ⟨0, 0⟩ ⟨1, 0⟩ ⟨0, 0⟩ ⟨1, 0⟩
      ⟨4, 0⟩ ⟨5, 0⟩ = some ⟨.Free, none, none⟩ := by decide!

/-- C7, amended: a vertex with zero attached (non-ignored) constraints
resolves `Free` with `new_pos = try_pos` exactly; an edge both of whose
endpoint solves return `Free` resolves `Free` with *no* positions in the
response (`new_pos = none`, the default `EdgeSolverResponse`), the raw
delta being applied by the caller instead. -/
theorem c7_free_invariance_amended :
    (∀ (sq : ℚ → ℚ) (at2 : ℚ → ℚ → ℚ) (st : State) (vh : Int)
       (fixed_pos try_pos : Pos2) (ig : List Int),
       classifyAux st vh ig st.constraint_map = some ⟨[], [], [], []⟩ →
       solve_for_vertex sq at2 st vh fixed_pos try_pos ig =
         some ⟨.Free, none, some try_pos⟩) ∧
    (∀ (sq : ℚ → ℚ) (at2 : ℚ → ℚ → ℚ) (st : State) (eh : Int) (edge : Edge)
       (fp tp v1f v1t v2f v2t : Pos2) (r1 r2 : SolverResponse),
       getEdge st eh = some edge →
       solve_for_vertex sq at2 st edge.start_point_vh v1f v1t
         edge.constraints = some r1 →
       r1.state = .Free →
       solve_for_vertex sq at2 st edge.end_point_vh v2f v2t
         edge.constraints = some r2 →
       r2.state = .Free →
       solve_for_edge sq at2 st eh fp tp v1f v1t v2f v2t =
         some ⟨.Free, none, none⟩) := by
  constructor
  · intro sq at2 st vh fixed_pos try_pos ig hcl
    simp [solve_for_vertex, hcl]
  · intro sq at2 st eh edge fp tp v1f v1t v2f v2t r1 r2 he h1 hs1 h2 hs2
    simp [solve_for_edge, he, h1, h2, hs1, hs2, EdgeSolverResponse.free]

/-- Witness for C7 (amended): on `stFreeEdge`, instantiating both halves —
the vertex solve accepts the tentative position exactly and the edge solve
returns the positionless `Free` response. -/
theorem c7_witness :
    solve_for_vertex sqA at2zero stFreeEdge 0 ⟨0, 0⟩ ⟨2, 3⟩ [] =
      some ⟨.Free, none, some ⟨2, 3⟩⟩ ∧
    solve_for_edge sqA at2zero stFreeEdge 0 ⟨0, 0⟩ ⟨2, 0⟩ ⟨0, 0⟩ ⟨2, 0⟩
      ⟨4, 0⟩ ⟨6, 0⟩ = some ⟨.Free, none, none⟩ :=
  ⟨c7_free_invariance_amended.1 sqA at2zero stFreeEdge 0 ⟨0, 0⟩ ⟨2, 3⟩ []
      (by decide!),
   c7_free_invariance_amended.2 sqA at2zero stFreeEdge 0 ⟨0, 1, []⟩
      ⟨0, 0⟩ ⟨2, 0⟩ ⟨0, 0⟩ ⟨2, 0⟩ ⟨4, 0⟩ ⟨6, 0⟩
      ⟨.Free, none, some ⟨2, 0⟩⟩ ⟨.Free, none, some ⟨6, 0⟩⟩
      (by decide!) (by decide!) rfl (by decide!) rfl⟩

/-! ## Claim C8 -/

/-- C8, counterexample: the claim says a bearing computation on an edge of
length below 1e-2 is surfaced as an explicit error result and that no input
aborts the process.  Dragging outer vertex 1 of `stShortArm` (at distance
`1/200 < 0.01` from the pivot) reaches `line_data_generator`, whose length
guard executes `panic!()`: the solve aborts (modelled as `none`) and no
error value is returned — `SolverResponse` has no error variant at all. -/
theorem c8_counterexample :
    solve_for_vertex sqA at2zero stShortArm 1 ⟨1 / 200, 0⟩ ⟨2, 2⟩ [] =
      none := by decide!

/-- C8, amended: when the dragged vertex is the outer vertex of an angle
constraint heading the angle-end bucket and the pivot→vertex direction is
shorter than the epsilon 1e-2 (as measured by the float square root), the
solve panics — the model returns `none` — rather than returning any
response, let alone an explicit error result. -/
theorem c8_short_bearing_panics (sq : ℚ → ℚ) (at2 : ℚ → ℚ → ℚ) (st : State)
    (vh : Int) (fixed_pos try_pos : Pos2) (ig : List Int)
    (ac : AngleConstraint) (rest : List AngleConstraint)
    (ps : List ParallelConstraint) (endV centerV : Vertex)
    (hcl : classifyAux st vh ig st.constraint_map =
      some ⟨[], [], ac :: rest, ps⟩)
    (hev : getVertex st vh = some endV)
    (hcv : getVertex st ac.pivot_vert_handle = some centerV)
    (hshort : Vec2.length sq (endV.position - centerV.position) < EPS_01) :
    solve_for_vertex sq at2 st vh fixed_pos try_pos ig = none := by
  simp [solve_for_vertex, hcl, precheck, lengthPaths, angleEndPaths,
    line_data_generator, hev, hcv, hshort]

/-- Witness for C8 (amended): instantiating the panic theorem on
`stShortArm` at a different tentative position. -/
theorem c8_witness :
    solve_for_vertex sqA at2zero stShortArm 1 ⟨1 / 200, 0⟩ ⟨3, 3⟩ [] =
      none :=
  c8_short_bearing_panics sqA at2zero stShortArm 1 ⟨1 / 200, 0⟩ ⟨3, 3⟩ []
    ⟨0, 0, 1, 1, 2⟩ [] [] ⟨⟨1 / 200, 0⟩, [0]⟩ ⟨⟨0, 0⟩, [0, 1]⟩
    (by decide!) (by decide!) (by decide!) (by decide!)

/-! ## Claim C3 -/

/-- Componentwise form of `Pos2` minus `Pos2`. -/
theorem Pos2.sub_def (a b : Pos2) :
    a - b = Vec2.mk (a.x - b.x) (a.y - b.y) := rfl

/-- Componentwise form of `Pos2` plus `Vec2`. -/
theorem Pos2.addv_def (p : Pos2) (v : Vec2) :
    p + v = Pos2.mk (p.x + v.x) (p.y + v.y) := rfl

/-- Componentwise form of `Vec2` times a scalar. -/
theorem Vec2.smul_def (v : Vec2) (r : ℚ) :
    v * r = Vec2.mk (v.x * r) (v.y * r) := rfl

/-- When the float square root is exact on the squared distance from the
query point to the circle's center (and on `1`, for the `UP` fallback), the
point `Circle::closest_point` returns lies exactly on the circle: its
squared distance to the center is the squared radius. -/
theorem circle_closest_point_length_sq (sq : ℚ → ℚ) (c : Circle) (p : Pos2)
    (hl : sq (Vec2.length_sq (p - c.origin)) *
      sq (Vec2.length_sq (p - c.origin)) = Vec2.length_sq (p - c.origin))
    (hl0 : 0 ≤ sq (Vec2.length_sq (p - c.origin)))
    (hone : sq 1 = 1) :
    Vec2.length_sq (Circle.closest_point sq c p - c.origin) =
      c.radius * c.radius := by
  simp only [Circle.closest_point]
  by_cases hbr : Vec2.length sq (p - c.origin) < EPS_001
  · rw [if_pos hbr]
    have hup : Vec2.length_sq Vec2.UP = 1 := by
      norm_num [Vec2.length_sq, Vec2.UP]
    simp only [Vec2.normalized, Vec2.length, hup, hone]
    rw [if_neg (by norm_num)]
    simp only [Pos2.addv_def, Pos2.sub_def, Vec2.smul_def, Vec2.length_sq,
      Vec2.UP]
    ring
  · rw [if_neg hbr]
    have heps : (0 : ℚ) < EPS_001 := by norm_num [EPS_001]
    have hpos : 0 < sq (Vec2.length_sq (p - c.origin)) := by
      rcases lt_or_eq_of_le hl0 with h | h
      · exact h
      · exact absurd (by rw [Vec2.length, ← h]; exact heps) hbr
    simp only [Vec2.normalized, Vec2.length]
    rw [if_neg (not_le.mpr hpos)]
    have hne : sq (Vec2.length_sq (p - c.origin)) ≠ 0 := ne_of_gt hpos
    simp only [Pos2.addv_def, Pos2.sub_def, Vec2.smul_def,
      Vec2.length_sq] at hl hne ⊢
    field_simp [hne]
    linear_combination (-(c.radius * c.radius)) * hl

/-- C3: when the only (non-ignored) constraint classified for the dragged
vertex is a single length constraint on an edge whose other endpoint
exists, `solve_for_vertex` returns `Partial` whose locus is the circle
centered at the other endpoint with radius = distance from `fixed_pos` to
that endpoint (the drag-start length), and whose position is that circle's
closest point to `try_pos`; when the float square root is exact at the two
arguments this drag feeds it, the squared distance from the resolved
position to the other endpoint equals the drag-start squared distance
exactly (hence the distances agree, well within the claimed 1e-3). -/
theorem c3_length_circle_locus (sq : ℚ → ℚ) (at2 : ℚ → ℚ → ℚ) (st : State)
    (vh : Int) (fixed_pos try_pos : Pos2) (ig : List Int)
    (lc : LengthConstraint) (edge : Edge) (other_v : Vertex)
    (hcl : classifyAux st vh ig st.constraint_map = some ⟨[lc], [], [], []⟩)
    (he : getEdge st lc.edge_handle = some edge)
    (hov : getVertex st (if edge.start_point_vh = vh then edge.end_point_vh
      else edge.start_point_vh) = some other_v)
    (hr : sq (Vec2.length_sq (fixed_pos - other_v.position)) *
      sq (Vec2.length_sq (fixed_pos - other_v.position)) =
      Vec2.length_sq (fixed_pos - other_v.position))
    (hl : sq (Vec2.length_sq (try_pos - other_v.position)) *
      sq (Vec2.length_sq (try_pos - other_v.position)) =
      Vec2.length_sq (try_pos - other_v.position))
    (hl0 : 0 ≤ sq (Vec2.length_sq (try_pos - other_v.position)))
    (hone : sq 1 = 1) :
    solve_for_vertex sq at2 st vh fixed_pos try_pos ig =
      some ⟨.PartialLocus,
        some (.Circle ⟨other_v.position,
          Pos2.distance sq fixed_pos other_v.position⟩),
        some (Circle.closest_point sq ⟨other_v.position,
          Pos2.distance sq fixed_pos other_v.position⟩ try_pos)⟩ ∧
    Vec2.length_sq (Circle.closest_point sq ⟨other_v.position,
        Pos2.distance sq fixed_pos other_v.position⟩ try_pos -
        other_v.position) =
      Vec2.length_sq (fixed_pos - other_v.position) := by
  constructor
  · simp [solve_for_vertex, hcl, precheck, lengthPaths, he, hov,
      angleEndPaths, angleCenterPaths, parallelPaths, intersect_paths,
      intersectFold, ConstraintPath.closest_point]
  · rw [circle_closest_point_length_sq sq
      ⟨other_v.position, Pos2.distance sq fixed_pos other_v.position⟩
      try_pos hl hl0 hone]
    simp only [Pos2.distance, Vec2.length]
    exact hr

/-- Witness for C3: dragging vertex 0 of the length-constrained edge of
`stLenEdge` from `(0,0)` towards `(0,3)`: the locus is the circle of radius
4 around `(4,0)` and the resolved position keeps squared distance 16 to
the other endpoint. -/
theorem c3_witness :
    solve_for_vertex sqA at2zero stLenEdge 0 ⟨0, 0⟩ ⟨0, 3⟩ [] =
      some ⟨.PartialLocus,
        some (.Circle ⟨Pos2.mk 4 0,
          Pos2.distance sqA ⟨0, 0⟩ (Pos2.mk 4 0)⟩),
        some (Circle.closest_point sqA ⟨Pos2.mk 4 0,
          Pos2.distance sqA ⟨0, 0⟩ (Pos2.mk 4 0)⟩ ⟨0, 3⟩)⟩ ∧
    Vec2.length_sq (Circle.closest_point sqA ⟨Pos2.mk 4 0,
        Pos2.distance sqA ⟨0, 0⟩ (Pos2.mk 4 0)⟩ ⟨0, 3⟩ - Pos2.mk 4 0) =
      Vec2.length_sq ((⟨0, 0⟩ : Pos2) - Pos2.mk 4 0) :=
  c3_length_circle_locus sqA at2zero stLenEdge 0 ⟨0, 0⟩ ⟨0, 3⟩ []
    ⟨0⟩ ⟨0, 1, []⟩ ⟨⟨4, 0⟩, [0]⟩ (by decide!) (by decide!) (by decide!)
    (by decide!) (by decide!) (by decide!) (by decide!)

/-! ## Claim C4 -/

/-- Looking up after an in-place update: the updated key reads back through
`f`, every other key is untouched. -/
theorem lookupA_updateA {α : Type} (m : List (Int × α)) (j k : Int)
    (f : α → α) :
    lookupA (updateA m j f) k =
      if k = j then (lookupA m j).map f else lookupA m k := by
  induction m with
  | nil =>
    simp only [updateA, lookupA]
    split <;> rfl
  | cons hd tl ih =>
    obtain ⟨a, v⟩ := hd
    simp only [updateA]
    by_cases haj : a = j
    · rw [if_pos haj]
      by_cases hkj : k = j
      · simp [lookupA, haj, hkj]
      · have hjk : ¬ j = k := fun h => hkj h.symm
        simp [lookupA, haj, hkj, hjk]
    · rw [if_neg haj]
      by_cases hak : a = k
      · have hkj : ¬ k = j := fun h => haj (hak.trans h)
        simp [lookupA, hak, hkj]
      · simp only [lookupA, if_neg hak, ih]
        by_cases hkj : k = j
        · simp [hkj, if_neg (fun h : a = j => haj h)]
        · simp [hkj]

/-- C4, counterexample: the claim says a length constraint on the dragged
edge is excluded from its own endpoints' solves and contributes no circle
locus.  `stLenEdge` was built by `add_length_constraint`, which leaves the
edge's `constraints` list empty (first conjunct), so dragging the edge
solves both endpoints with an empty ignore-set and the edge's own length
constraint produces one circle locus per endpoint: the response is
`Partial` carrying those two circles, not the `Free` response that an
excluded constraint would give. -/
theorem c4_counterexample :
    (getEdge stLenEdge 0).map Edge.constraints = some [] ∧
    solve_for_edge sqA at2zero stLenEdge 0 ⟨0, 0⟩ ⟨0, 0⟩ ⟨0, 0⟩ ⟨1, 0⟩
      ⟨4, 0⟩ ⟨5, 0⟩ =
      some ⟨.PartialLocus,
        some [.Circle ⟨⟨4, 0⟩, 4⟩, .Circle ⟨⟨0, 0⟩, 4⟩],
        some (⟨8, 0⟩, ⟨4, 0⟩)⟩ := by
  constructor
  · decide!
  · decide!

/-- C4, amended: `solve_for_edge` does pass the dragged edge's own
`constraints` list as the ignore-set of both endpoint solves, but only
`add_parallel_constraint` registers its new handle into both participating
edges' lists (first conjunct); `add_length_constraint` leaves every edge's
list untouched (second conjunct), so a length constraint on the dragged
edge is *not* excluded from its endpoints' solves. -/
theorem c4_owned_constraint_registration :
    (∀ (st : State) (e1 e2 : Int) (st' : State) (ch : Int),
      add_parallel_constraint st e1 e2 = .ok (st', ch) →
      (∃ ed, lookupA st'.edge_map e1 = some ed ∧ ch ∈ ed.constraints) ∧
      (∃ ed, lookupA st'.edge_map e2 = some ed ∧ ch ∈ ed.constraints)) ∧
    (∀ (st : State) (eh : Int) (st' : State) (ch : Int),
      add_length_constraint st eh = .ok (st', ch) →
      st'.edge_map = st.edge_map) := by
  constructor
  · intro st e1 e2 st' ch h
    unfold add_parallel_constraint at h
    rcases hx1 : lookupA st.edge_map e1 with _ | ed1
    · rw [hx1] at h; simp at h
    · rw [hx1] at h
      rcases hx2 : lookupA st.edge_map e2 with _ | ed2
      · rw [hx2] at h; simp at h
      · rw [hx2] at h
        simp only [Option.isNone_some, Bool.false_eq_true, if_false] at h
        rw [Except.ok.injEq, Prod.mk.injEq] at h
        obtain ⟨hst, hch⟩ := h
        subst hst; subst hch
        constructor
        · rw [lookupA_updateA]
          by_cases h12 : e1 = e2
          · subst h12
            rw [if_pos rfl, lookupA_updateA, if_pos rfl, hx1]
            exact ⟨_, rfl, by simp⟩
          · rw [if_neg h12, lookupA_updateA, if_pos rfl, hx1]
            exact ⟨_, rfl, by simp⟩
        · rw [lookupA_updateA, if_pos rfl, lookupA_updateA]
          by_cases h21 : e2 = e1
          · rw [if_pos h21, hx1]
            exact ⟨_, rfl, by simp⟩
          · rw [if_neg h21, hx2]
            exact ⟨_, rfl, by simp⟩
  · intro st eh st' ch h
    unfold add_length_constraint at h
    split at h
    · simp at h
    · rw [Except.ok.injEq, Prod.mk.injEq] at h
      obtain ⟨hst, _⟩ := h
      subst hst
      rfl

/-- Witness for C4 (amended): adding the parallel constraint of
`stParallel` registers handle 0 on edges 1 and 2, and adding the length
constraint of `stLenEdge` leaves the edge map of `stFreeEdge` unchanged. -/
theorem c4_witness :
    ((∃ ed, lookupA stParallel.edge_map 1 = some ed ∧ 0 ∈ ed.constraints) ∧
     (∃ ed, lookupA stParallel.edge_map 2 = some ed ∧ 0 ∈ ed.constraints)) ∧
    stLenEdge.edge_map = stFreeEdge.edge_map :=
  ⟨c4_owned_constraint_registration.1 stPreParallel 1 2 stParallel 0
      (by decide!),
   c4_owned_constraint_registration.2 stFreeEdge 0 stLenEdge 0 (by decide!)⟩

/-! ## Claim C6 -/

/-- C6: how `solve_for_edge` combines the two endpoint solves.  If either
endpoint solve is `Locked` the edge is `Locked`; if both are `Partial`,
the edge's own line (origin `try_pos`, direction the normalized current
edge direction) is intersected with each endpoint's surviving locus
independently: one failed intersection makes the edge `Locked`, two
successful ones make it `Partial` with each endpoint moved to its
respective intersection point. -/
theorem c6_edge_combination (sq : ℚ → ℚ) (at2 : ℚ → ℚ → ℚ) (st : State)
    (eh : Int) (edge : Edge) (fp tp v1f v1t v2f v2t : Pos2)
    (r1 r2 : SolverResponse)
    (he : getEdge st eh = some edge)
    (h1 : solve_for_vertex sq at2 st edge.start_point_vh v1f v1t
      edge.constraints = some r1)
    (h2 : solve_for_vertex sq at2 st edge.end_point_vh v2f v2t
      edge.constraints = some r2) :
    ((r1.state = .Locked ∨ r2.state = .Locked) →
      solve_for_edge sq at2 st eh fp tp v1f v1t v2f v2t =
        some ⟨.Locked, none, none⟩) ∧
    (∀ (p1 p2 : ConstraintPath) (V1 V2 : Vertex),
      r1.state = .PartialLocus → r1.valid_path = some p1 →
      r2.state = .PartialLocus → r2.valid_path = some p2 →
      getVertex st edge.start_point_vh = some V1 →
      getVertex st edge.end_point_vh = some V2 →
      ((edgeIntersectFunc sq
          ⟨tp, Vec2.normalized sq (V2.position - V1.position)⟩ p1 = none ∨
        edgeIntersectFunc sq
          ⟨tp, Vec2.normalized sq (V2.position - V1.position)⟩ p2 = none) →
        solve_for_edge sq at2 st eh fp tp v1f v1t v2f v2t =
          some ⟨.Locked, none, none⟩) ∧
      (∀ q1 q2 : Pos2,
        edgeIntersectFunc sq
          ⟨tp, Vec2.normalized sq (V2.position - V1.position)⟩ p1 = some q1 →
        edgeIntersectFunc sq
          ⟨tp, Vec2.normalized sq (V2.position - V1.position)⟩ p2 = some q2 →
        solve_for_edge sq at2 st eh fp tp v1f v1t v2f v2t =
          some ⟨.PartialLocus, some [p1, p2], some (q1, q2)⟩)) := by
  constructor
  · intro hlock
    by_cases hs1 : r1.state = SolverState.Locked
    · simp [solve_for_edge, he, h1, h2, hs1, EdgeSolverResponse.locked]
    · have hs2 : r2.state = SolverState.Locked := hlock.resolve_left hs1
      simp [solve_for_edge, he, h1, h2, hs1, hs2, EdgeSolverResponse.locked]
  · intro p1 p2 V1 V2 hs1 hp1 hs2 hp2 hv1 hv2
    constructor
    · intro hfail
      rcases hfail with hf | hf
      · simp [solve_for_edge, he, h1, h2, hs1, hs2, hp1, hp2, hv1, hv2, hf,
          EdgeSolverResponse.locked]
      · rcases hq1 : edgeIntersectFunc sq
            ⟨tp, Vec2.normalized sq (V2.position - V1.position)⟩ p1 with
          _ | q1
        · simp [solve_for_edge, he, h1, h2, hs1, hs2, hp1, hp2, hv1, hv2,
            hq1, EdgeSolverResponse.locked]
        · simp [solve_for_edge, he, h1, h2, hs1, hs2, hp1, hp2, hv1, hv2,
            hq1, hf, EdgeSolverResponse.locked]
    · intro q1 q2 hq1 hq2
      simp [solve_for_edge, he, h1, h2, hs1, hs2, hp1, hp2, hv1, hv2,
        hq1, hq2]

/-- Witness for C6: dragging the length-constrained edge of `stLenEdge`
(both endpoint solves are `Partial` with circle loci, both intersections
with the edge line succeed) yields the `Partial` response moving the
endpoints to `(8,0)` and `(4,0)`. -/
theorem c6_witness :
    solve_for_edge sqA at2zero stLenEdge 0 ⟨0, 0⟩ ⟨1, 0⟩ ⟨0, 0⟩ ⟨1, 0⟩
      ⟨4, 0⟩ ⟨5, 0⟩ =
      some ⟨.PartialLocus,
        some [.Circle ⟨⟨4, 0⟩, 4⟩, .Circle ⟨⟨0, 0⟩, 4⟩],
        some (⟨8, 0⟩, ⟨4, 0⟩)⟩ :=
  ((c6_edge_combination sqA at2zero stLenEdge 0 ⟨0, 1, []⟩ ⟨0, 0⟩ ⟨1, 0⟩
      ⟨0, 0⟩ ⟨1, 0⟩ ⟨4, 0⟩ ⟨5, 0⟩
      ⟨.PartialLocus, some (.Circle ⟨⟨4, 0⟩, 4⟩), some ⟨0, 0⟩⟩
      ⟨.PartialLocus, some (.Circle ⟨⟨0, 0⟩, 4⟩), some ⟨4, 0⟩⟩
      (by decide!) (by decide!) (by decide!)).2
    (.Circle ⟨⟨4, 0⟩, 4⟩) (.Circle ⟨⟨0, 0⟩, 4⟩)
    ⟨⟨0, 0⟩, [0]⟩ ⟨⟨4, 0⟩, [0]⟩
    rfl rfl rfl rfl (by decide!) (by decide!)).2
    ⟨8, 0⟩ ⟨4, 0⟩ (by decide!) (by decide!)

/-! ## Claim C9 -/

/-- C9 (implicit behaviour): when exactly one endpoint solve is `Free` and
the other is `Partial`, a failed intersection of the edge's line with the
`Partial` endpoint's locus does not lock the edge: the response is still
`Partial`, the `Partial` endpoint's returned position stays at the default
origin `(0,0)`, and the `Free` endpoint is translated by the delta from the
`Partial` endpoint's fixed position to that default origin. -/
theorem c9_one_free_one_bound_no_lock (sq : ℚ → ℚ) (at2 : ℚ → ℚ → ℚ)
    (st : State) (eh : Int) (edge : Edge) (fp tp v1f v1t v2f v2t : Pos2)
    (r1 r2 : SolverResponse)
    (he : getEdge st eh = some edge)
    (h1 : solve_for_vertex sq at2 st edge.start_point_vh v1f v1t
      edge.constraints = some r1)
    (h2 : solve_for_vertex sq at2 st edge.end_point_vh v2f v2t
      edge.constraints = some r2) :
    (∀ (p2 : ConstraintPath) (V1 V2 : Vertex),
      r1.state = .Free →
      r2.state = .PartialLocus → r2.valid_path = some p2 →
      getVertex st edge.start_point_vh = some V1 →
      getVertex st edge.end_point_vh = some V2 →
      edgeIntersectFunc sq
        ⟨tp, Vec2.normalized sq (V2.position - V1.position)⟩ p2 = none →
      solve_for_edge sq at2 st eh fp tp v1f v1t v2f v2t =
        some ⟨.PartialLocus, some [p2],
          some (v1f + ((⟨0, 0⟩ : Pos2) - v2f), ⟨0, 0⟩)⟩) ∧
    (∀ (p1 : ConstraintPath) (V1 V2 : Vertex),
      r1.state = .PartialLocus → r1.valid_path = some p1 →
      r2.state = .Free →
      getVertex st edge.start_point_vh = some V1 →
      getVertex st edge.end_point_vh = some V2 →
      edgeIntersectFunc sq
        ⟨tp, Vec2.normalized sq (V2.position - V1.position)⟩ p1 = none →
      solve_for_edge sq at2 st eh fp tp v1f v1t v2f v2t =
        some ⟨.PartialLocus, some [p1],
          some (⟨0, 0⟩, v2f + ((⟨0, 0⟩ : Pos2) - v1f))⟩) := by
  constructor
  · intro p2 V1 V2 hs1 hs2 hp2 hv1 hv2 hfail
    simp [solve_for_edge, he, h1, h2, hs1, hs2, hp2, hv1, hv2, hfail]
  · intro p1 V1 V2 hs1 hp1 hs2 hv1 hv2 hfail
    simp [solve_for_edge, he, h1, h2, hs1, hs2, hp1, hv1, hv2, hfail]

/-- Witness for C9: dragging edge 0 of `stParallel`.  Endpoint 0 is free,
endpoint 1 is constrained to the line through `(14,0)` parallel to the
dragged edge, so the intersection fails (parallel lines); the response is
`Partial` with endpoint 1 parked at the origin and endpoint 0 translated by
`(0,0) - (4,0)`. -/
theorem c9_witness :
    solve_for_edge sqA at2zero stParallel 0 ⟨0, 0⟩ ⟨1, 0⟩ ⟨0, 0⟩ ⟨1, 0⟩
      ⟨4, 0⟩ ⟨5, 0⟩ =
      some ⟨.PartialLocus, some [.Line ⟨⟨14, 0⟩, ⟨1, 0⟩⟩],
        some ((⟨0, 0⟩ : Pos2) + ((⟨0, 0⟩ : Pos2) - (⟨4, 0⟩ : Pos2)),
          ⟨0, 0⟩)⟩ :=
  (c9_one_free_one_bound_no_lock sqA at2zero stParallel 0 ⟨0, 1, []⟩
      ⟨0, 0⟩ ⟨1, 0⟩ ⟨0, 0⟩ ⟨1, 0⟩ ⟨4, 0⟩ ⟨5, 0⟩
      ⟨.Free, none, some ⟨1, 0⟩⟩
      ⟨.PartialLocus, some (.Line ⟨⟨14, 0⟩, ⟨1, 0⟩⟩), some ⟨5, 0⟩⟩
      (by decide!) (by decide!) (by decide!)).1
    (.Line ⟨⟨14, 0⟩, ⟨1, 0⟩⟩) ⟨⟨0, 0⟩, [0]⟩ ⟨⟨4, 0⟩, [0, 1]⟩
    rfl rfl rfl (by decide!) (by decide!) (by decide!)

/-! ## Claim C10 -/

/-- An in-place update never changes the key sequence of a map. -/
theorem keysOf_updateA {α : Type} (m : List (Int × α)) (k : Int)
    (f : α → α) : keysOf (updateA m k f) = keysOf m := by
  induction m with
  | nil => rfl
  | cons hd tl ih =>
    obtain ⟨a, v⟩ := hd
    simp only [updateA]
    split <;> simp_all [keysOf]

/-- Membership in a consecutive-integer block. -/
theorem mem_intsFrom (n : Int) (k : ℕ) (x : Int) :
    x ∈ intsFrom n k ↔ ∃ i : ℕ, i < k ∧ x = n + i := by
  simp only [intsFrom, List.mem_map, List.mem_range]
  constructor
  · rintro ⟨i, hi, hx⟩; exact ⟨i, hi, hx.symm⟩
  · rintro ⟨i, hi, hx⟩; exact ⟨i, hi, hx.symm⟩

/-- Peeling the last element of a consecutive-integer block. -/
theorem intsFrom_succ_last (n : Int) (k : ℕ) :
    intsFrom n (k + 1) = intsFrom n k ++ [n + k] := by
  simp [intsFrom, List.range_succ]

/-- Peeling the first element of a consecutive-integer block. -/
theorem intsFrom_succ_head (n : Int) (k : ℕ) :
    intsFrom n (k + 1) = n :: intsFrom (n + 1) k := by
  simp only [intsFrom, List.range_succ_eq_map, List.map_cons, List.map_map]
  congr 1
  · simp
  · apply List.map_congr_left
    intro i _
    simp only [Function.comp_apply]
    push_cast
    ring

/-- Every element of a block starting at a nonnegative base is
nonnegative. -/
theorem intsFrom_nonneg (n : Int) (k : ℕ) (hn : 0 ≤ n) :
    ∀ x ∈ intsFrom n k, 0 ≤ x := by
  intro x hx
  obtain ⟨i, _, rfl⟩ := (mem_intsFrom n k x).mp hx
  positivity

/-- A consecutive-integer block is strictly increasing. -/
theorem intsFrom_pairwise (n : Int) (k : ℕ) :
    List.Pairwise (· < ·) (intsFrom n k) := by
  unfold intsFrom
  refine List.Pairwise.map _ ?_ (List.pairwise_lt_range k)
  intro a b hab
  omega

/-- If a map's keys are exactly `0, …, j-1` then `get_next_id` returns
`j` (the current maximum key plus one, or `0` on the empty map). -/
theorem get_next_id_of_keys {α : Type} (m : List (Int × α)) (j : ℕ)
    (h : keysOf m = intsFrom 0 j) : get_next_id m = (j : Int) := by
  cases j with
  | zero =>
    have hm : m = [] := by
      apply List.map_eq_nil_iff.mp
      show keysOf m = []
      simpa [intsFrom] using h
    subst hm
    simp [get_next_id]
  | succ j' =>
    have hlast : (keysOf m).getLast? = some ((0 : ℤ) + j') := by
      rw [h, intsFrom_succ_last, List.getLast?_concat]
    rw [keysOf, List.getLast?_map] at hlast
    rcases hm : m.getLast? with _ | p
    · rw [hm] at hlast; cases hlast
    · rw [hm] at hlast
      simp only [Option.map_some', Option.some.injEq] at hlast
      simp only [get_next_id, hm, hlast]
      push_cast
      ring

/-- Inserting a key larger than all existing keys appends at the end. -/
theorem insertA_append {α : Type} (m : List (Int × α)) (n : Int) (v : α)
    (hlt : ∀ k ∈ keysOf m, k < n) : insertA m n v = m ++ [(n, v)] := by
  induction m with
  | nil => rfl
  | cons hd tl ih =>
    obtain ⟨a, w⟩ := hd
    have ha : a < n := hlt a (by
      rw [keysOf, List.map_cons]
      exact List.mem_cons_self _ _)
    simp only [insertA]
    rw [if_neg (by omega), if_neg (by omega)]
    rw [ih (fun k hk => hlt k (by
      rw [keysOf, List.map_cons]
      exact List.mem_cons_of_mem _ hk))]
    rfl

/-- Inserting at `get_next_id` extends the key sequence `0, …, j-1`
to `0, …, j`. -/
theorem keysOf_insertA {α : Type} (m : List (Int × α)) (j : ℕ) (v : α)
    (h : keysOf m = intsFrom 0 j) :
    keysOf (insertA m (j : Int) v) = intsFrom 0 (j + 1) := by
  have hlt : ∀ k ∈ keysOf m, k < (j : Int) := by
    intro k hk
    rw [h] at hk
    obtain ⟨i, hi, rfl⟩ := (mem_intsFrom 0 j k).mp hk
    omega
  rw [insertA_append m _ v hlt, keysOf, List.map_append, ← keysOf, h,
    intsFrom_succ_last]
  simp

/-- Shape of a successful `add_edge`: the handle is the next edge id, the
edge map gains exactly that key, the vertex keys are untouched. -/
theorem add_edge_ok (st : State) (a b : Int) (st' : State) (h : Int)
    (hadd : add_edge st a b = .ok (st', h)) :
    h = get_next_id st.edge_map ∧
    keysOf st'.vertex_map = keysOf st.vertex_map ∧
    st'.edge_map = insertA st.edge_map (get_next_id st.edge_map)
      ⟨a, b, []⟩ ∧
    st'.constraint_map = st.constraint_map := by
  unfold add_edge at hadd
  split at hadd
  · cases hadd
  · split at hadd
    · cases hadd
    · rw [Except.ok.injEq, Prod.mk.injEq] at hadd
      obtain ⟨hst, hh⟩ := hadd
      subst hst
      exact ⟨hh.symm, by simp [keysOf_updateA], rfl, rfl⟩

/-- Shape of a successful `add_length_constraint`. -/
theorem add_length_ok (st : State) (eh : Int) (st' : State) (h : Int)
    (hadd : add_length_constraint st eh = .ok (st', h)) :
    h = get_next_id st.constraint_map ∧
    st'.vertex_map = st.vertex_map ∧
    st'.edge_map = st.edge_map ∧
    st'.constraint_map = insertA st.constraint_map
      (get_next_id st.constraint_map) (.LENGTH ⟨eh⟩) := by
  unfold add_length_constraint at hadd
  split at hadd
  · cases hadd
  · rw [Except.ok.injEq, Prod.mk.injEq] at hadd
    obtain ⟨hst, hh⟩ := hadd
    subst hst
    exact ⟨hh.symm, rfl, rfl, rfl⟩

/-- Shape of a successful `add_angle_constraint`. -/
theorem add_angle_ok (st : State) (e1 e2 : Int) (st' : State) (h : Int)
    (hadd : add_angle_constraint st e1 e2 = .ok (st', h)) :
    h = get_next_id st.constraint_map ∧
    st'.vertex_map = st.vertex_map ∧
    st'.edge_map = st.edge_map ∧
    ∃ c, st'.constraint_map = insertA st.constraint_map
      (get_next_id st.constraint_map) c := by
  unfold add_angle_constraint at hadd
  split at hadd
  · cases hadd
  · split at hadd
    · cases hadd
    · split at hadd
      · split at hadd
        · cases hadd
        · rw [Except.ok.injEq, Prod.mk.injEq] at hadd
          obtain ⟨hst, hh⟩ := hadd
          subst hst
          exact ⟨hh.symm, rfl, rfl, _, rfl⟩
      · cases hadd

/-- Shape of a successful `add_parallel_constraint`: handle is the next
constraint id, the vertex map is untouched, the edge keys are untouched
(only two values are updated in place). -/
theorem add_parallel_ok (st : State) (e1 e2 : Int) (st' : State) (h : Int)
    (hadd : add_parallel_constraint st e1 e2 = .ok (st', h)) :
    h = get_next_id st.constraint_map ∧
    st'.vertex_map = st.vertex_map ∧
    keysOf st'.edge_map = keysOf st.edge_map ∧
    st'.constraint_map = insertA st.constraint_map
      (get_next_id st.constraint_map) (.PARALLEL ⟨e1, e2⟩) := by
  unfold add_parallel_constraint at hadd
  split at hadd
  · cases hadd
  · split at hadd
    · cases hadd
    · rw [Except.ok.injEq, Prod.mk.injEq] at hadd
      obtain ⟨hst, hh⟩ := hadd
      subst hst
      exact ⟨hh.symm, rfl, by simp [keysOf_updateA], rfl⟩

/-- Effect of one API call on the key invariant: a call either returns the
next vertex, edge or constraint handle and extends that map's key sequence
by one, or fails and leaves the state untouched. -/
theorem stepOp_spec (st : State) (op : Op) (jv je jc : ℕ)
    (hv : keysOf st.vertex_map = intsFrom 0 jv)
    (he : keysOf st.edge_map = intsFrom 0 je)
    (hc : keysOf st.constraint_map = intsFrom 0 jc) :
    (∃ st1, stepOp st op = (st1, some (jv : Int), none, none) ∧
      keysOf st1.vertex_map = intsFrom 0 (jv + 1) ∧
      keysOf st1.edge_map = intsFrom 0 je ∧
      keysOf st1.constraint_map = intsFrom 0 jc) ∨
    (∃ st1, stepOp st op = (st1, none, some (je : Int), none) ∧
      keysOf st1.vertex_map = intsFrom 0 jv ∧
      keysOf st1.edge_map = intsFrom 0 (je + 1) ∧
      keysOf st1.constraint_map = intsFrom 0 jc) ∨
    (∃ st1, stepOp st op = (st1, none, none, some (jc : Int)) ∧
      keysOf st1.vertex_map = intsFrom 0 jv ∧
      keysOf st1.edge_map = intsFrom 0 je ∧
      keysOf st1.constraint_map = intsFrom 0 (jc + 1)) ∨
    stepOp st op = (st, none, none, none) := by
  cases op with
  | addV p =>
    left
    have hn : get_next_id st.vertex_map = (jv : Int) :=
      get_next_id_of_keys st.vertex_map jv hv
    refine ⟨State.mk (insertA st.vertex_map (jv : Int) ⟨p, []⟩)
      st.edge_map st.constraint_map, ?_, ?_, ?_, ?_⟩
    · simp [stepOp, add_vertex, hn]
    · exact keysOf_insertA st.vertex_map jv _ hv
    · exact he
    · exact hc
  | addE a b =>
    rcases hadd : add_edge st a b with e | ⟨st2, h2⟩
    · right; right; right
      simp [stepOp, hadd]
    · right; left
      obtain ⟨hh, hkv, hem, hcm⟩ := add_edge_ok st a b st2 h2 hadd
      have hn : get_next_id st.edge_map = (je : Int) :=
        get_next_id_of_keys st.edge_map je he
      refine ⟨st2, ?_, ?_, ?_, ?_⟩
      · simp [stepOp, hadd, hh, hn]
      · rw [hkv]; exact hv
      · rw [hem, hn]; exact keysOf_insertA st.edge_map je _ he
      · rw [hcm]; exact hc
  | addLC eh =>
    rcases hadd : add_length_constraint st eh with e | ⟨st2, h2⟩
    · right; right; right
      simp [stepOp, hadd]
    · right; right; left
      obtain ⟨hh, hvm, hem, hcm⟩ := add_length_ok st eh st2 h2 hadd
      have hn : get_next_id st.constraint_map = (jc : Int) :=
        get_next_id_of_keys st.constraint_map jc hc
      refine ⟨st2, ?_, ?_, ?_, ?_⟩
      · simp [stepOp, hadd, hh, hn]
      · rw [hvm]; exact hv
      · rw [hem]; exact he
      · rw [hcm, hn]; exact keysOf_insertA st.constraint_map jc _ hc
  | addAC e1 e2 =>
    rcases hadd : add_angle_constraint st e1 e2 with e | ⟨st2, h2⟩
    · right; right; right
      simp [stepOp, hadd]
    · right; right; left
      obtain ⟨hh, hvm, hem, c, hcm⟩ := add_angle_ok st e1 e2 st2 h2 hadd
      have hn : get_next_id st.constraint_map = (jc : Int) :=
        get_next_id_of_keys st.constraint_map jc hc
      refine ⟨st2, ?_, ?_, ?_, ?_⟩
      · simp [stepOp, hadd, hh, hn]
      · rw [hvm]; exact hv
      · rw [hem]; exact he
      · rw [hcm, hn]; exact keysOf_insertA st.constraint_map jc _ hc
  | addPC e1 e2 =>
    rcases hadd : add_parallel_constraint st e1 e2 with e | ⟨st2, h2⟩
    · right; right; right
      simp [stepOp, hadd]
    · right; right; left
      obtain ⟨hh, hvm, hem, hcm⟩ := add_parallel_ok st e1 e2 st2 h2 hadd
      have hn : get_next_id st.constraint_map = (jc : Int) :=
        get_next_id_of_keys st.constraint_map jc hc
      refine ⟨st2, ?_, ?_, ?_, ?_⟩
      · simp [stepOp, hadd, hh, hn]
      · rw [hvm]; exact hv
      · rw [hem]; exact he
      · rw [hcm, hn]; exact keysOf_insertA st.constraint_map jc _ hc

/-- Running any call sequence from a state whose maps hold the keys
`0, …, j-1` returns, per map, exactly the consecutive handles starting at
`j`. -/
theorem runOps_handles (ops : List Op) :
    ∀ (st : State) (jv je jc : ℕ),
    keysOf st.vertex_map = intsFrom 0 jv →
    keysOf st.edge_map = intsFrom 0 je →
    keysOf st.constraint_map = intsFrom 0 jc →
    (runOps st ops).2.1 = intsFrom (jv : Int) (runOps st ops).2.1.length ∧
    (runOps st ops).2.2.1 = intsFrom (je : Int) (runOps st ops).2.2.1.length ∧
    (runOps st ops).2.2.2 = intsFrom (jc : Int) (runOps st ops).2.2.2.length
    := by
  induction ops with
  | nil =>
    intro st jv je jc _ _ _
    simp [runOps, intsFrom]
  | cons op rest ih =>
    intro st jv je jc hv he hc
    rcases stepOp_spec st op jv je jc hv he hc with
      ⟨st1, hs, h1v, h1e, h1c⟩ | ⟨st1, hs, h1v, h1e, h1c⟩ |
      ⟨st1, hs, h1v, h1e, h1c⟩ | hs
    · obtain ⟨H1, H2, H3⟩ := ih st1 (jv + 1) je jc h1v h1e h1c
      simp only [runOps, hs]
      refine ⟨?_, by simpa using H2, by simpa using H3⟩
      simp only [Option.toList_some, List.singleton_append,
        List.length_cons]
      rw [intsFrom_succ_head]
      simp only [List.cons.injEq, true_and]
      simpa using H1
    · obtain ⟨H1, H2, H3⟩ := ih st1 jv (je + 1) jc h1v h1e h1c
      simp only [runOps, hs]
      refine ⟨by simpa using H1, ?_, by simpa using H3⟩
      simp only [Option.toList_some, List.singleton_append,
        List.length_cons]
      rw [intsFrom_succ_head]
      simp only [List.cons.injEq, true_and]
      simpa using H2
    · obtain ⟨H1, H2, H3⟩ := ih st1 jv je (jc + 1) h1v h1e h1c
      simp only [runOps, hs]
      refine ⟨by simpa using H1, by simpa using H2, ?_⟩
      simp only [Option.toList_some, List.singleton_append,
        List.length_cons]
      rw [intsFrom_succ_head]
      simp only [List.cons.injEq, true_and]
      simpa using H3
    · obtain ⟨H1, H2, H3⟩ := ih st jv je jc hv he hc
      simp only [runOps, hs]
      exact ⟨by simpa using H1, by simpa using H2, by simpa using H3⟩

/-- C10: for every sequence of `add_vertex` / `add_edge` /
`add_*_constraint` calls starting from the empty managers (failed calls
allocating nothing), the handles returned within each of the three maps
are exactly `0, 1, 2, …` in call order — in particular pairwise distinct,
strictly increasing, non-negative, starting at `0`, each new one the
current maximum key plus one. -/
theorem c10_handle_allocation (ops : List Op) :
    ((runOps State.empty ops).2.1 =
        intsFrom 0 (runOps State.empty ops).2.1.length ∧
      List.Pairwise (· < ·) (runOps State.empty ops).2.1 ∧
      ∀ h ∈ (runOps State.empty ops).2.1, 0 ≤ h) ∧
    ((runOps State.empty ops).2.2.1 =
        intsFrom 0 (runOps State.empty ops).2.2.1.length ∧
      List.Pairwise (· < ·) (runOps State.empty ops).2.2.1 ∧
      ∀ h ∈ (runOps State.empty ops).2.2.1, 0 ≤ h) ∧
    ((runOps State.empty ops).2.2.2 =
        intsFrom 0 (runOps State.empty ops).2.2.2.length ∧
      List.Pairwise (· < ·) (runOps State.empty ops).2.2.2 ∧
      ∀ h ∈ (runOps State.empty ops).2.2.2, 0 ≤ h) := by
  have h0 : keysOf ([] : List (Int × Vertex)) = intsFrom 0 0 := by
    simp [keysOf, intsFrom]
  obtain ⟨H1, H2, H3⟩ := runOps_handles ops State.empty 0 0 0
    (by simp [State.empty, keysOf, intsFrom])
    (by simp [State.empty, keysOf, intsFrom])
    (by simp [State.empty, keysOf, intsFrom])
  refine ⟨⟨by simpa using H1, ?_, ?_⟩, ⟨by simpa using H2, ?_, ?_⟩,
    ⟨by simpa using H3, ?_, ?_⟩⟩
  · rw [show (runOps State.empty ops).2.1 =
      intsFrom 0 (runOps State.empty ops).2.1.length by simpa using H1]
    exact intsFrom_pairwise _ _
  · rw [show (runOps State.empty ops).2.1 =
      intsFrom 0 (runOps State.empty ops).2.1.length by simpa using H1]
    exact intsFrom_nonneg _ _ le_rfl
  · rw [show (runOps State.empty ops).2.2.1 =
      intsFrom 0 (runOps State.empty ops).2.2.1.length by simpa using H2]
    exact intsFrom_pairwise _ _
  · rw [show (runOps State.empty ops).2.2.1 =
      intsFrom 0 (runOps State.empty ops).2.2.1.length by simpa using H2]
    exact intsFrom_nonneg _ _ le_rfl
  · rw [show (runOps State.empty ops).2.2.2 =
      intsFrom 0 (runOps State.empty ops).2.2.2.length by simpa using H3]
    exact intsFrom_pairwise _ _
  · rw [show (runOps State.empty ops).2.2.2 =
      intsFrom 0 (runOps State.empty ops).2.2.2.length by simpa using H3]
    exact intsFrom_nonneg _ _ le_rfl

end CPM
